import Mathlib

/-!
Shallow embedding of `reverse_proxy.py` (Lovsan/RambaZamba): the proxy-pool
data model (`ProxyEntry`, `TrafficStats`, `ProxyPool`), the HTTP request
relay handler (`proxy_request`), and the `ReverseProxy` start/stop surface,
together with theorems settling the specification claims about them.

Python strings are embedded as `List Char` (`PyStr`); Python `float` time
stamps and durations are embedded as `ℚ` (they are only stored, compared to
the constant 0.3, and averaged, so rationals are a faithful model for every
value the claims touch); `int` is embedded as `Int` (`Nat` where the source
can only produce non-negative values).  Network and file effects are made
explicit: the outcome of an upstream HTTP exchange or of a validation probe
is an input to the embedded function, and a saved proxy file is the string
(`PyStr`) the writer produces.
-/

namespace RambaZamba

/-- Python `str` embedded as a list of characters. -/
abbrev PyStr := List Char

/-- Python `str.isspace`-style whitespace recognised by `str.strip()`
(space, tab, newline, carriage return, vertical tab, form feed). -/
def pyIsSpace (c : Char) : Bool :=
  c == ' ' || c == '\t' || c == '\n' || c == '\r' || c == '\x0b' || c == '\x0c'

/-- Python `line.strip()`: drop leading and trailing whitespace. -/
def pyStrip (s : PyStr) : PyStr :=
  ((s.dropWhile pyIsSpace).reverse.dropWhile pyIsSpace).reverse

/-- Python `s.split(sep)` for a single-character separator: split at every
occurrence, keeping empty fields (`"".split(':') == ['']`). -/
def pySplit (sep : Char) : PyStr → List PyStr
  | [] => [[]]
  | c :: cs =>
    if c = sep then [] :: pySplit sep cs
    else
      match pySplit sep cs with
      | [] => [[c]]
      | r :: rs => (c :: r) :: rs

/-- Python `str.lower()` on one character (ASCII range; the only strings the
pool lowercases are proxy-type names, which are ASCII). -/
def pyLowerChar (c : Char) : Char :=
  if 'A' ≤ c ∧ c ≤ 'Z' then Char.ofNat (c.toNat + 32) else c

/-- Python `str.lower()`. -/
def pyLower (s : PyStr) : PyStr := s.map pyLowerChar

/-- Numeric value of a decimal digit character. -/
def digitVal (c : Char) : Nat := c.toNat - '0'.toNat

/-- Value of a string of decimal digits. -/
def digitsVal (s : PyStr) : Nat := s.foldl (fun a c => a * 10 + digitVal c) 0

/-- Fuel-driven digit expansion (structural recursion so that terms
reduce inside the kernel); any `fuel > n` is enough. -/
def natToDigitsAux : Nat → Nat → List Char
  | 0, _ => []
  | fuel + 1, n =>
    if n < 10 then [Nat.digitChar n]
    else natToDigitsAux fuel (n / 10) ++ [Nat.digitChar (n % 10)]

/-- Decimal digits of a natural number, most significant first
(the digits Python's `str(n)` prints for `n ≥ 0`). -/
def natToDigits (n : Nat) : List Char := natToDigitsAux (n + 1) n

/-- Python `str(i)` for an `int`: optional minus sign then decimal digits. -/
def pyIntRepr (i : Int) : PyStr :=
  if i < 0 then '-' :: natToDigits i.natAbs else natToDigits i.natAbs

/-- Python `int(s)`: strip whitespace, optional sign, decimal digits;
`None` models the `ValueError` path.  (Python additionally accepts a `+`
sign and `_` digit grouping; neither can occur in a saved proxy file, whose
ports are produced by `str(int)`.) -/
def pyInt? (s : PyStr) : Option Int :=
  let t := pyStrip s
  if t = [] then none
  else if t.head? = some '-' then
    if t.tail = [] then none
    else if t.tail.all Char.isDigit then some (-(digitsVal t.tail : Int)) else none
  else if t.all Char.isDigit then some ((digitsVal t : Int)) else none

/-- Embedding of `ProxyEntry` (reverse_proxy.py, lines 47-109): one proxy server in the
pool.  Field defaults mirror the dataclass defaults. -/
structure ProxyEntry where
  host : PyStr
  port : Int
  proxy_type : PyStr := "http".data
  username : Option PyStr := none
  password : Option PyStr := none
  is_active : Bool := true
  success_count : Nat := 0
  failure_count : Nat := 0
  last_used : Option ℚ := none
  last_validated : Option ℚ := none
  response_times : List ℚ := []
deriving DecidableEq, Repr

/-- Embedding of `ProxyEntry.record_success` (lines 69-76): bump the success counter, set
`last_used` to the current time, append the response time and keep only the
last 100 samples.  `now` stands for the `time.time()` call. -/
def ProxyEntry.record_success (e : ProxyEntry) (response_time now : ℚ) : ProxyEntry :=
  let rts := e.response_times ++ [response_time]
  { e with
    success_count := e.success_count + 1
    last_used := some now
    response_times := if rts.length > 100 then rts.drop (rts.length - 100) else rts }

/-- Embedding of `ProxyEntry.record_failure` (lines 78-81): bump the failure counter and
set `last_used`; nothing else is touched. -/
def ProxyEntry.record_failure (e : ProxyEntry) (now : ℚ) : ProxyEntry :=
  { e with failure_count := e.failure_count + 1, last_used := some now }

/-- Embedding of `ProxyEntry.get_success_rate` (lines 83-88): `success / (success +
failure)`, or `0.0` when no request was recorded yet. -/
def ProxyEntry.get_success_rate (e : ProxyEntry) : ℚ :=
  let total := e.success_count + e.failure_count
  if total = 0 then 0 else (e.success_count : ℚ) / (total : ℚ)

/-- Embedding of `ProxyEntry.get_avg_response_time` (lines 90-94). -/
def ProxyEntry.get_avg_response_time (e : ProxyEntry) : ℚ :=
  if e.response_times = [] then 0
  else e.response_times.sum / (e.response_times.length : ℚ)

/-- Embedding of `TrafficStats` (lines 112-121): process-wide traffic counters.
`requests_per_minute` embeds the `deque(maxlen=60)` of
`(minute, count)` pairs. -/
structure TrafficStats where
  total_requests : Nat := 0
  successful_requests : Nat := 0
  failed_requests : Nat := 0
  bytes_received : Nat := 0
  bytes_sent : Nat := 0
  start_time : ℚ := 0
  requests_per_minute : List (Int × Nat) := []
deriving DecidableEq, Repr

/-- Python `int(x)` on a non-negative float/rational: truncation toward
zero (all times in the source are non-negative; the general form is kept
for faithfulness). -/
def pyTrunc (q : ℚ) : Int := if q < 0 then ⌈q⌉ else ⌊q⌋

/-- Embedding of `deque(maxlen=60)` append: the oldest element is evicted when full. -/
def dequePush60 (q : List (Int × Nat)) (x : Int × Nat) : List (Int × Nat) :=
  let q := q ++ [x]
  if 60 < q.length then q.drop (q.length - 60) else q

/-- Embedding of `TrafficStats.record_request` (lines 123-138): count the request as a
success or failure, add the byte counts, and update the per-minute ring.
`now` stands for the `time.time()` call. -/
def TrafficStats.record_request (st : TrafficStats) (success : Bool)
    (bytes_in bytes_out : Nat) (now : ℚ) : TrafficStats :=
  let st := { st with
    total_requests := st.total_requests + 1
    successful_requests :=
      if success then st.successful_requests + 1 else st.successful_requests
    failed_requests :=
      if success then st.failed_requests else st.failed_requests + 1
    bytes_received := st.bytes_received + bytes_in
    bytes_sent := st.bytes_sent + bytes_out }
  let current_minute : Int := pyTrunc (now / 60)
  match st.requests_per_minute.getLast? with
  | some (m, c) =>
    if m = current_minute then
      { st with requests_per_minute :=
          st.requests_per_minute.dropLast ++ [(m, c + 1)] }
    else
      { st with requests_per_minute :=
          dequePush60 st.requests_per_minute (current_minute, 1) }
  | none =>
    { st with requests_per_minute :=
        dequePush60 st.requests_per_minute (current_minute, 1) }

/-- Embedding of `ProxyPool` (lines 165-179): the target collection, the rotation cursor
and the background-thread bookkeeping.  The cursor is an `Int` because the
claims quantify over arbitrary cursor values (Python `%` on a negative
left operand and positive modulus agrees with `Int.emod`).  `running`
embeds `_running`; `rotationThreads` / `validationThreads` count the
threads spawned by `start_rotation` / `start_validation`. -/
structure ProxyPool where
  proxies : List ProxyEntry := []
  rotation_interval : ℚ := 60
  validation_interval : ℚ := 300
  current_proxy_index : Int := 0
  last_rotation : ℚ := 0
  running : Bool := false
  rotationThreads : Nat := 0
  validationThreads : Nat := 0
deriving DecidableEq, Repr

/-- A fresh pool as built by `ProxyPool()` with default intervals. -/
def emptyPool : ProxyPool := {}

/-- The valid proxy kinds of `add_proxy` (line 196). -/
def valid_types : List PyStr :=
  ["http".data, "https".data, "socks4".data, "socks5".data]

/-- Embedding of `ProxyPool.add_proxy` (lines 181-219): reject an unrecognized kind,
then reject a duplicate `(host, port)`, otherwise append a fresh entry
(lower-cased kind, default health fields) and return `True`. -/
def ProxyPool.add_proxy (pool : ProxyPool) (host : PyStr) (port : Int)
    (proxy_type : PyStr) (username password : Option PyStr) :
    ProxyPool × Bool :=
  if pyLower proxy_type ∈ valid_types then
    if pool.proxies.any fun p => p.host == host && p.port == port then
      (pool, false)
    else
      ({ pool with proxies := pool.proxies ++
          [{ host := host, port := port, proxy_type := pyLower proxy_type,
             username := username, password := password }] }, true)
  else (pool, false)

/-- Embedding of `ProxyPool.remove_proxy` (lines 221-229): pop the first entry matching
`(host, port)`; `False` if absent. -/
def ProxyPool.remove_proxy (pool : ProxyPool) (host : PyStr) (port : Int) :
    ProxyPool × Bool :=
  match pool.proxies.findIdx? (fun p => p.host == host && p.port == port) with
  | some i => ({ pool with proxies := pool.proxies.eraseIdx i }, true)
  | none => (pool, false)

/-- Embedding of `ProxyPool.get_current_proxy` (lines 231-239): `None` when no target is
active; otherwise normalise the cursor modulo the active count and return
the active target at the cursor. -/
def ProxyPool.get_current_proxy (pool : ProxyPool) :
    Option ProxyEntry × ProxyPool :=
  let active_proxies := pool.proxies.filter (·.is_active)
  if active_proxies.length = 0 then (none, pool)
  else
    let idx := pool.current_proxy_index % (active_proxies.length : Int)
    (active_proxies.get? idx.toNat, { pool with current_proxy_index := idx })

/-- Embedding of `ProxyPool.rotate` (lines 241-251): no-op with at most one active
target, otherwise advance the cursor modulo the active count and stamp
`last_rotation`.  `now` stands for the `time.time()` call. -/
def ProxyPool.rotate (pool : ProxyPool) (now : ℚ) : ProxyPool :=
  let active_proxies := pool.proxies.filter (·.is_active)
  if active_proxies.length ≤ 1 then pool
  else
    { pool with
      current_proxy_index :=
        (pool.current_proxy_index + 1) % (active_proxies.length : Int)
      last_rotation := now }

/-- Outcome of the validation probe's network exchange
(`opener.open(request, timeout=...)` in `validate_proxy`): either a
response with a status code, or any raised exception (connect error,
timeout, HTTP error — all reach the same `except`). -/
inductive ProbeResult where
  | ok (code : Nat)
  | exc
deriving DecidableEq, Repr

/-- Embedding of `ProxyPool.validate_proxy` (lines 253-285), acting on the probed entry.
The network call through `validation_url` / `validation_timeout` is
abstracted by `res`; `start` and `finish` stand for the two `time.time()`
calls.  On HTTP 200: record a success, stamp `last_validated`, force
`is_active := true`, return `True` — the threshold check below is never
reached.  On an exception: record a failure.  Every non-returning path
falls through to the deactivation threshold
(`failure_count > 5 and success_rate < 0.3`) and returns `False`.
(`0.3` is the Python float literal; every comparison the claims exercise
has an exact rational value, so `(3 : ℚ)/10` is a faithful embedding.) -/
def ProxyPool.validate_proxy (proxy : ProxyEntry) (res : ProbeResult)
    (start finish : ℚ) : ProxyEntry × Bool :=
  let afterTry : ProxyEntry × Bool :=
    match res with
    | .ok code =>
      if code = 200 then
        let p := proxy.record_success (finish - start) finish
        ({ p with last_validated := some finish, is_active := true }, true)
      else (proxy, false)
    | .exc => (proxy.record_failure finish, false)
  match afterTry with
  | (p, true) => (p, true)
  | (p, false) =>
    if 5 < p.failure_count ∧ p.get_success_rate < (3 : ℚ) / 10 then
      ({ p with is_active := false }, false)
    else (p, false)

/-- The line `save_to_file` writes for one entry:
`f"{proxy.host}:{proxy.port}:{proxy.proxy_type}"`. -/
def entryLine (e : ProxyEntry) : PyStr :=
  e.host ++ ':' :: (pyIntRepr e.port ++ ':' :: e.proxy_type)

/-- Embedding of `ProxyPool.save_to_file` (lines 364-372): the file content produced —
one `host:port:type` line per entry, each ended by a newline. -/
def ProxyPool.save_to_file (pool : ProxyPool) : PyStr :=
  (pool.proxies.map fun e => entryLine e ++ ['\n']).flatten

/-- One iteration of the `load_from_file` read loop (lines 340-355): strip
the line, skip it when blank or `#`-prefixed, split on `:`, need at least
two fields, parse the port (a `ValueError` skips the line), default the
kind to `http`, and `add_proxy` (which may itself reject the line).  The
accumulator carries the pool and the running count. -/
def loadLine (st : ProxyPool × Nat) (rawLine : PyStr) : ProxyPool × Nat :=
  let line := pyStrip rawLine
  if line = [] then st
  else if line.head? = some '#' then st
  else
    match pySplit ':' line with
    | p0 :: p1 :: rest =>
      match pyInt? p1 with
      | some port =>
        let proxy_type := match rest with | t :: _ => t | [] => "http".data
        let (pool, added) := st.1.add_proxy p0 port proxy_type none none
        (pool, if added then st.2 + 1 else st.2)
      | none => st
    | _ => st

/-- Embedding of `ProxyPool.load_from_file` (lines 335-362) applied to a file content:
iterate `loadLine` over the lines and return the pool with the count of
added proxies.  (Iterating a Python file yields the `'\n'`-separated
chunks; the final empty chunk after a trailing newline is stripped to a
blank line and skipped, so splitting on `'\n'` is equivalent.) -/
def ProxyPool.load_from_file (pool : ProxyPool) (content : PyStr) :
    ProxyPool × Nat :=
  (pySplit '\n' content).foldl loadLine (pool, 0)

/-- Embedding of `ProxyPool.start_rotation` (lines 299-311): set `_running` and spawn
the rotation thread. -/
def ProxyPool.start_rotation (pool : ProxyPool) : ProxyPool :=
  { pool with running := true, rotationThreads := pool.rotationThreads + 1 }

/-- Embedding of `ProxyPool.start_validation` (lines 313-323): spawn the validation
thread (`_running` is not touched here). -/
def ProxyPool.start_validation (pool : ProxyPool) : ProxyPool :=
  { pool with validationThreads := pool.validationThreads + 1 }

/-- Embedding of `ProxyPool.stop` (lines 325-328): clear `_running`. -/
def ProxyPool.stop (pool : ProxyPool) : ProxyPool :=
  { pool with running := false }

/-- The hop-by-hop header names excluded from forwarding (lines 439-441). -/
def hop_by_hop : List PyStr :=
  ["connection".data, "keep-alive".data, "proxy-authenticate".data,
   "proxy-authorization".data, "te".data, "trailers".data,
   "transfer-encoding".data, "upgrade".data, "host".data]

/-- Python `dict` assignment `d[k] = v` on an insertion-ordered
association list: overwrite in place if the key exists, else append. -/
def dictSet (d : List (PyStr × PyStr)) (k v : PyStr) : List (PyStr × PyStr) :=
  if d.any fun kv => kv.1 == k then
    d.map fun kv => if kv.1 == k then (k, v) else kv
  else d ++ [(k, v)]

/-- Outbound header construction of `proxy_request` (lines 437-453): copy
the client headers minus hop-by-hop ones into a dict, then set `Host`,
`X-Forwarded-For`, `X-Forwarded-Proto` and `X-Real-IP`. -/
def buildHeaders (reqHeaders : List (PyStr × PyStr)) (target_host : PyStr)
    (target_port : Int) (client_ip scheme : PyStr) : List (PyStr × PyStr) :=
  let base := reqHeaders.foldl
    (fun d kv => if pyLower kv.1 ∈ hop_by_hop then d else dictSet d kv.1 kv.2) []
  let d := dictSet base "Host".data (target_host ++ ':' :: pyIntRepr target_port)
  let d := dictSet d "X-Forwarded-For".data client_ip
  let d := dictSet d "X-Forwarded-Proto".data scheme
  dictSet d "X-Real-IP".data client_ip

/-- Outcome of the upstream exchange in `proxy_request`: which control-flow
branch of the `try`/`except` ladder (lines 474-532) runs, with the data
that branch observes.  `ok`: `opener.open` succeeded and the response was
relayed to the client.  `httpError`: `urllib.error.HTTPError` was raised
(a valid non-2xx HTTP response).  `urlError` / `timedOut`: transport
failures.  `clientGone`: `BrokenPipeError`.  `internalExc`: any other
exception, caught by the generic handler.  Bodies are byte strings,
embedded as `List Nat`. -/
inductive UpstreamResult where
  | ok (code : Nat) (hdrs : List (PyStr × PyStr)) (body : List Nat)
  | httpError (code : Nat) (hdrs : List (PyStr × PyStr)) (body : List Nat)
  | urlError (reason : PyStr)
  | timedOut
  | clientGone
  | internalExc (msg : PyStr)
deriving DecidableEq, Repr

/-- One message the handler writes back to its client: a relayed response
(`send_response` + filtered headers + body) or a synthetic error page
(`send_error`). -/
inductive ClientSend where
  | response (code : Nat) (hdrs : List (PyStr × PyStr)) (body : List Nat)
  | errorPage (code : Nat) (message : PyStr)
deriving DecidableEq, Repr

/-- Relayed response headers: the upstream headers minus hop-by-hop ones
(lines 483-485 and 500-502). -/
def filterHop (hdrs : List (PyStr × PyStr)) : List (PyStr × PyStr) :=
  hdrs.filter fun kv => decide (pyLower kv.1 ∉ hop_by_hop)

/-- What one branch of the `try`/`except` ladder produces before the
`finally` block runs: the client messages, the `success` flag, the
response byte count, the proxy entry after any success/failure recording
(`none` when no upstream proxy was in use), and the count of extra
(debug/exception) log lines the branch emits. -/
structure BranchOut where
  sent : List ClientSend
  success : Bool
  bytes_out : Nat
  finalProxy : Option ProxyEntry
  extraLogs : Nat
deriving DecidableEq, Repr

/-- The branch bodies of `proxy_request` (lines 474-532).  `t0` is the
`start_time` stamp, `t1` the `time.time()` of the recording calls. -/
def relayBranch (proxy : Option ProxyEntry) (up : UpstreamResult)
    (t0 t1 : ℚ) : BranchOut :=
  match up with
  | .ok code hdrs body =>
    { sent := [.response code (filterHop hdrs) body]
      success := true
      bytes_out := body.length
      finalProxy := proxy.map fun p => p.record_success (t1 - t0) t1
      extraLogs := 0 }
  | .httpError code hdrs body =>
    -- "Forward HTTP errors ... Still counts as successful proxy operation"
    { sent := [.response code (filterHop hdrs) body]
      success := true
      bytes_out := body.length
      finalProxy := proxy.map fun p => p.record_success (t1 - t0) t1
      extraLogs := 0 }
  | .urlError reason =>
    { sent := [.errorPage 502 ("Bad Gateway: ".data ++ reason)]
      success := false
      bytes_out := 0
      finalProxy := proxy.map fun p => p.record_failure t1
      extraLogs := 0 }
  | .timedOut =>
    { sent := [.errorPage 504 "Gateway Timeout".data]
      success := false
      bytes_out := 0
      finalProxy := proxy.map fun p => p.record_failure t1
      extraLogs := 0 }
  | .clientGone =>
    -- logger.debug("Client disconnected before response completed")
    { sent := []
      success := false
      bytes_out := 0
      finalProxy := proxy
      extraLogs := 1 }
  | .internalExc msg =>
    -- send_error(500, ...); logger.exception("Error proxying request")
    { sent := [.errorPage 500 ("Internal Server Error: ".data ++ msg)]
      success := false
      bytes_out := 0
      finalProxy := proxy.map fun p => p.record_failure t1
      extraLogs := 1 }

/-- The per-request `logger.info` line emitted by the `finally` block
(lines 540-545), as a structured record of its format fields. -/
structure LogRecord where
  command : PyStr
  path : PyStr
  target_host : PyStr
  proxy_addr : Option (PyStr × Int)
  elapsed : ℚ
  bytes_in : Nat
  bytes_out : Nat
deriving DecidableEq, Repr

/-- Everything one `proxy_request` invocation produces. -/
structure HandlerOut where
  sent : List ClientSend
  success : Bool
  bytes_in : Nat
  bytes_out : Nat
  stats : Option TrafficStats
  finalProxy : Option ProxyEntry
  requestLog : List LogRecord
  extraLogs : Nat
  outboundUrl : PyStr
  outboundHeaders : List (PyStr × PyStr)
deriving DecidableEq, Repr

/-- Embedding of `ReverseProxyHandler.proxy_request` (lines 417-545).  Handler class
state (`proxy_pool`, `stats`, target address, `use_ssl`) and the request
data are passed in; the upstream exchange outcome is `up`.  The branches
all funnel into the `finally` block, which records exactly one
`TrafficStats` entry (when `stats` is set) and emits exactly one request
log line — mirrored here by applying the recording and the log append
outside the branch dispatch.  `clen` is the parsed `Content-Length`
(0 when absent); `bytes_in` is set to it before the upstream call, as in
the source. -/
def proxy_request (pool : Option ProxyPool) (stats : Option TrafficStats)
    (command path : PyStr) (reqHeaders : List (PyStr × PyStr)) (clen : Nat)
    (target_host : PyStr) (target_port : Int) (use_ssl : Bool)
    (client_ip : PyStr) (up : UpstreamResult) (t0 t1 : ℚ) : HandlerOut :=
  let proxy : Option ProxyEntry :=
    match pool with
    | some pl => (pl.get_current_proxy).1
    | none => none
  let scheme : PyStr := if use_ssl then "https".data else "http".data
  let target_url : PyStr :=
    scheme ++ "://".data ++ target_host ++ ':' :: pyIntRepr target_port ++ path
  let headers := buildHeaders reqHeaders target_host target_port client_ip scheme
  let bytes_in := clen
  let b := relayBranch proxy up t0 t1
  -- finally: record statistics, then log the request
  let stats1 := stats.map fun st => st.record_request b.success bytes_in b.bytes_out t1
  { sent := b.sent
    success := b.success
    bytes_in := bytes_in
    bytes_out := b.bytes_out
    stats := stats1
    finalProxy := b.finalProxy
    requestLog := [{ command := command, path := path,
                     target_host := target_host,
                     proxy_addr := proxy.map fun p => (p.host, p.port),
                     elapsed := t1 - t0,
                     bytes_in := bytes_in, bytes_out := b.bytes_out }]
    extraLogs := b.extraLogs
    outboundUrl := target_url
    outboundHeaders := headers }

/-- Embedding of `ReverseProxy` (lines 548-600): the server-level state the start/stop
claims are about.  `serverGen` counts the `ThreadingTCPServer` objects
created and bound so far (`self.server` reassignments); `serverThreads`
counts the `_serve` threads spawned. -/
structure ReverseProxyS where
  listen_host : PyStr := "0.0.0.0".data
  listen_port : Int := 8888
  target_host : PyStr := "localhost".data
  target_port : Int := 80
  use_ssl : Bool := false
  proxy_pool : ProxyPool := emptyPool
  stats : TrafficStats := {}
  serverGen : Nat := 0
  running : Bool := false
  serverThreads : Nat := 0
deriving DecidableEq, Repr

/-- Embedding of `ReverseProxy.start` (lines 602-630): unconditionally configure the
handler, create and bind a new `ThreadingTCPServer`, start the pool's
rotation and validation threads, set `_running` and spawn a server
thread.  There is no check of `_running` anywhere in this method. -/
def ReverseProxyS.start (s : ReverseProxyS) : ReverseProxyS :=
  { s with
    serverGen := s.serverGen + 1
    proxy_pool := (s.proxy_pool.start_rotation).start_validation
    running := true
    serverThreads := s.serverThreads + 1 }

/-- Embedding of `ReverseProxy.stop` (lines 641-649): clear `_running`, stop the pool
threads, shut the server down if one exists. -/
def ReverseProxyS.stop (s : ReverseProxyS) : ReverseProxyS :=
  { s with running := false, proxy_pool := s.proxy_pool.stop }

/-- The `start` command of `interactive_mode` (lines 736-741): call
`proxy.start()` only when `_running` is false, otherwise leave the state
alone and print "Proxy is already running".  The returned flag is `true`
when the warning was printed. -/
def interactiveStart (s : ReverseProxyS) : ReverseProxyS × Bool :=
  if s.running = false then (s.start, false) else (s, true)

/-! ## Theorems -/

/-- A fresh entry as `add_proxy` would create it. -/
def sampleEntry : ProxyEntry := { host := "h".data, port := 1080 }

/-- Applying the failing-probe path of `validate_proxy` once: the entry
after `validate_proxy` when the probe raised. -/
def failProbe (e : ProxyEntry) (t : ℚ) : ProxyEntry :=
  (ProxyPool.validate_proxy e .exc t t).1

/-- C9 counterexample: one `record_failure` on a fresh target gives
`success_rate = 0` while `success_count + failure_count = 1 ≠ 0`, so the
rate is *not* zero exactly when the total is zero. -/
theorem C9_counterexample :
    (sampleEntry.record_failure 0).get_success_rate = 0 ∧
    (sampleEntry.record_failure 0).success_count +
      (sampleEntry.record_failure 0).failure_count ≠ 0 := by
  constructor
  · norm_num [sampleEntry, ProxyEntry.record_failure, ProxyEntry.get_success_rate]
  · decide

/-- C9 (amended): the success rate always lies in `[0, 1]`; it is `0`
whenever no request was recorded; and it is `0` exactly when the success
count is `0`. -/
theorem C9_success_rate_bounds (e : ProxyEntry) :
    0 ≤ e.get_success_rate ∧ e.get_success_rate ≤ 1 ∧
    (e.success_count + e.failure_count = 0 → e.get_success_rate = 0) ∧
    (e.get_success_rate = 0 ↔ e.success_count = 0) := by
  simp only [ProxyEntry.get_success_rate]
  by_cases h : e.success_count + e.failure_count = 0
  · rw [if_pos h]
    have hs : e.success_count = 0 := by omega
    exact ⟨le_refl 0, zero_le_one, fun _ => rfl, by simp [hs]⟩
  · rw [if_neg h]
    have hpos : (0 : ℚ) < ((e.success_count + e.failure_count : Nat) : ℚ) := by
      exact_mod_cast Nat.pos_of_ne_zero h
    refine ⟨div_nonneg (by positivity) hpos.le, ?_, fun hc => absurd hc h, ?_⟩
    · rw [div_le_one hpos]
      exact_mod_cast Nat.le_add_right _ _
    · rw [div_eq_zero_iff]
      constructor
      · rintro (hz | hz)
        · exact_mod_cast hz
        · exact absurd (by exact_mod_cast hz) h
      · intro hz
        left
        exact_mod_cast hz

/-- C9 witness: the amended theorem applied at a fresh entry, discharging
the `total = 0` hypothesis there. -/
theorem C9_witness : sampleEntry.get_success_rate = 0 :=
  (C9_success_rate_bounds sampleEntry).2.2.1 (by decide)

/-- C10: a single HTTP-200 validation probe sets `is_active := true` (and
`validate_proxy` returns `True`), whatever the entry's accumulated
failure count, success rate, or previous `active` state. -/
theorem C10_success_probe_reactivates (e : ProxyEntry) (start finish : ℚ) :
    ((ProxyPool.validate_proxy e (.ok 200) start finish).1).is_active = true ∧
    (ProxyPool.validate_proxy e (.ok 200) start finish).2 = true := by
  simp [ProxyPool.validate_proxy, ProxyEntry.record_success]

/-- C1 counterexample: six consecutive `record_failure` calls on a fresh
target leave `is_active = true` (with `failure_count = 6`), because
`record_failure` never applies the deactivation threshold. -/
theorem C1_counterexample :
    sampleEntry.success_count = 0 ∧ sampleEntry.failure_count = 0 ∧
    sampleEntry.is_active = true ∧
    ((((((sampleEntry.record_failure 1).record_failure 2).record_failure
        3).record_failure 4).record_failure 5).record_failure 6).failure_count = 6 ∧
    ((((((sampleEntry.record_failure 1).record_failure 2).record_failure
        3).record_failure 4).record_failure 5).record_failure 6).is_active = true := by
  decide

/-- C1 (amended): `record_failure` itself never changes `is_active`; the
deactivation threshold (`failure_count > 5` and `success_rate < 0.3`) is
applied by `validate_proxy`, so six consecutive *failed validation probes*
on a fresh target (no prior successes or failures) leave it deactivated. -/
theorem C1_deactivation_via_validate (e : ProxyEntry) (now t1 t2 t3 t4 t5 t6 : ℚ)
    (hs : e.success_count = 0) (hf : e.failure_count = 0) :
    (e.record_failure now).is_active = e.is_active ∧
    (failProbe (failProbe (failProbe (failProbe (failProbe (failProbe
      e t1) t2) t3) t4) t5) t6).is_active = false := by
  obtain ⟨host, port, pt, un, pw, ia, sc, fc, lu, lv, rt⟩ := e
  simp only at hs hf
  subst hs hf
  refine ⟨rfl, ?_⟩
  norm_num [failProbe, ProxyPool.validate_proxy, ProxyEntry.record_failure,
    ProxyEntry.get_success_rate]

/-- C1 witness: the amended theorem applied at the sample fresh entry. -/
theorem C1_witness :
    (sampleEntry.record_failure 0).is_active = sampleEntry.is_active ∧
    (failProbe (failProbe (failProbe (failProbe (failProbe (failProbe
      sampleEntry 1) 2) 3) 4) 5) 6).is_active = false :=
  C1_deactivation_via_validate sampleEntry 0 1 2 3 4 5 6 (by decide) (by decide)

/-- C5: when no target is active, `get_current_proxy` returns `None`;
otherwise the cursor taken modulo the active count is in range and the
returned target is the active-list element at that index — never an
out-of-range access, for any cursor value. -/
theorem C5_get_current_proxy_safe (pool : ProxyPool) :
    (pool.proxies.filter (·.is_active) = [] →
      (pool.get_current_proxy).1 = none) ∧
    (pool.proxies.filter (·.is_active) ≠ [] →
      (pool.current_proxy_index %
          ((pool.proxies.filter (·.is_active)).length : Int)).toNat <
        (pool.proxies.filter (·.is_active)).length ∧
      (pool.get_current_proxy).1 =
        (pool.proxies.filter (·.is_active)).get?
          (pool.current_proxy_index %
            ((pool.proxies.filter (·.is_active)).length : Int)).toNat ∧
      ((pool.get_current_proxy).1).isSome = true) := by
  constructor
  · intro h
    simp [ProxyPool.get_current_proxy, h]
  · intro h
    have hlen : 0 < (pool.proxies.filter (·.is_active)).length :=
      List.length_pos.mpr h
    have hlenZ : (0 : Int) < ((pool.proxies.filter (·.is_active)).length : Int) := by
      exact_mod_cast hlen
    have hmod1 : 0 ≤ pool.current_proxy_index %
        ((pool.proxies.filter (·.is_active)).length : Int) :=
      Int.emod_nonneg _ (by omega)
    have hmod2 : pool.current_proxy_index %
        ((pool.proxies.filter (·.is_active)).length : Int) <
        ((pool.proxies.filter (·.is_active)).length : Int) :=
      Int.emod_lt_of_pos _ hlenZ
    have hbound : (pool.current_proxy_index %
        ((pool.proxies.filter (·.is_active)).length : Int)).toNat <
        (pool.proxies.filter (·.is_active)).length := by
      omega
    refine ⟨hbound, ?_, ?_⟩
    · simp [ProxyPool.get_current_proxy, List.length_eq_zero, h]
    · simp only [ProxyPool.get_current_proxy]
      rw [if_neg (by simpa [List.length_eq_zero] using h)]
      simp only
      rw [List.get?_eq_get hbound]
      rfl

/-- The `(host, port)` pairs of a pool, in order. -/
def poolKeys (pool : ProxyPool) : List (PyStr × Int) :=
  pool.proxies.map fun e => (e.host, e.port)

/-- An administrative mutation of the pool: the two operations claim C6
quantifies over. -/
inductive PoolOp where
  | add (host : PyStr) (port : Int) (proxy_type : PyStr)
        (username password : Option PyStr)
  | remove (host : PyStr) (port : Int)
deriving DecidableEq, Repr

/-- Apply one operation (dropping the boolean result). -/
def applyOp (pool : ProxyPool) : PoolOp → ProxyPool
  | .add h p t u w => (pool.add_proxy h p t u w).1
  | .remove h p => (pool.remove_proxy h p).1

/-- Run a sequence of operations on the empty pool. -/
def runOps (ops : List PoolOp) : ProxyPool := ops.foldl applyOp emptyPool

/-- The duplicate scan of `add_proxy` succeeds exactly when `(host, port)`
is already a key of the pool. -/
theorem any_match_iff_mem_keys (pool : ProxyPool) (host : PyStr) (port : Int) :
    (pool.proxies.any fun p => p.host == host && p.port == port) = true ↔
      (host, port) ∈ poolKeys pool := by
  simp only [poolKeys, List.any_eq_true, List.mem_map, Bool.and_eq_true,
    beq_iff_eq, Prod.ext_iff]

/-- Each pool operation preserves distinctness of the `(host, port)`
keys. -/
theorem applyOp_keys_nodup (pool : ProxyPool) (op : PoolOp)
    (h : (poolKeys pool).Nodup) : (poolKeys (applyOp pool op)).Nodup := by
  cases op with
  | add host port proxy_type username password =>
    simp only [applyOp, ProxyPool.add_proxy]
    by_cases hv : pyLower proxy_type ∈ valid_types
    · rw [if_pos hv]
      by_cases hd : (pool.proxies.any fun p => p.host == host && p.port == port) = true
      · rw [if_pos hd]
        exact h
      · rw [if_neg hd]
        have hmem : (host, port) ∉ poolKeys pool := fun hm =>
          hd ((any_match_iff_mem_keys pool host port).mpr hm)
        simp only [poolKeys, List.map_append, List.map_cons, List.map_nil]
        rw [List.nodup_append]
        refine ⟨h, List.nodup_singleton _, fun a ha hb => ?_⟩
        simp only [List.mem_singleton] at hb
        subst hb
        exact hmem ha
    · rw [if_neg hv]
      exact h
  | remove host port =>
    simp only [applyOp, ProxyPool.remove_proxy]
    cases hfi : pool.proxies.findIdx? fun p => p.host == host && p.port == port with
    | none => exact h
    | some i =>
      simp only
      have hsub : List.Sublist
          ((pool.proxies.eraseIdx i).map (fun e => (e.host, e.port)))
          (pool.proxies.map (fun e => (e.host, e.port))) :=
        (pool.proxies.eraseIdx_sublist i).map _
      exact h.sublist hsub

/-- C6: every pool reachable from the empty pool by `add`/`remove`
sequences has pairwise-distinct `(host, port)` keys; `add_proxy` returns
`False` and leaves the pool unchanged on an unrecognized kind or a
duplicate key, and otherwise appends exactly one fresh entry and returns
`True`. -/
theorem C6_add_remove_contract (ops : List PoolOp) (pool : ProxyPool)
    (host : PyStr) (port : Int) (proxy_type : PyStr)
    (username password : Option PyStr) :
    (poolKeys (runOps ops)).Nodup ∧
    (pyLower proxy_type ∉ valid_types →
      pool.add_proxy host port proxy_type username password = (pool, false)) ∧
    (pyLower proxy_type ∈ valid_types → (host, port) ∈ poolKeys pool →
      pool.add_proxy host port proxy_type username password = (pool, false)) ∧
    (pyLower proxy_type ∈ valid_types → (host, port) ∉ poolKeys pool →
      pool.add_proxy host port proxy_type username password =
        ({ pool with proxies := pool.proxies ++
            [{ host := host, port := port, proxy_type := pyLower proxy_type,
               username := username, password := password }] }, true)) := by
  refine ⟨?_, ?_, ?_, ?_⟩
  · have haux : ∀ (l : List PoolOp) (p : ProxyPool), (poolKeys p).Nodup →
        (poolKeys (l.foldl applyOp p)).Nodup := by
      intro l
      induction l with
      | nil => intro p hp; exact hp
      | cons o rest ih =>
        intro p hp
        exact ih (applyOp p o) (applyOp_keys_nodup p o hp)
    exact haux ops emptyPool (by simp [poolKeys, emptyPool])
  · intro hv
    simp [ProxyPool.add_proxy, hv]
  · intro hv hd
    have := (any_match_iff_mem_keys pool host port).mpr hd
    simp [ProxyPool.add_proxy, hv, this]
  · intro hv hd
    have hne : ¬ (pool.proxies.any fun p => p.host == host && p.port == port) = true :=
      fun ha => hd ((any_match_iff_mem_keys pool host port).mp ha)
    simp only [ProxyPool.add_proxy, if_pos hv]
    rw [if_neg hne]

/-- A small reachable pool used by the C6 witness: the result of adding
`("a", 1)` to the empty pool. -/
def poolA : ProxyPool := (emptyPool.add_proxy "a".data 1 "http".data none none).1

/-- C6 witness: the contract applied at concrete inputs — a duplicate add
on `poolA` is rejected and leaves the pool unchanged. -/
theorem C6_witness :
    pyLower "http".data ∈ valid_types ∧ ("a".data, (1 : Int)) ∈ poolKeys poolA ∧
    poolA.add_proxy "a".data 1 "http".data none none = (poolA, false) :=
  ⟨by decide, by decide,
    (C6_add_remove_contract [] poolA "a".data 1 "http".data none none).2.2.1
      (by decide) (by decide)⟩

/-- A pool with two active targets (and one inactive) and an
out-of-range cursor, used by witnesses. -/
def samplePool : ProxyPool :=
  { emptyPool with
    proxies :=
      [{ host := "a".data, port := 1 },
       { host := "b".data, port := 2, is_active := false },
       { host := "c".data, port := 3 }]
    current_proxy_index := 5 }

/-- C5 witness: the safety theorem applied at `samplePool`, whose cursor
(5) exceeds its active count (2); the selection still yields a target. -/
theorem C5_witness :
    samplePool.proxies.filter (·.is_active) ≠ [] ∧
    ((samplePool.get_current_proxy).1).isSome = true :=
  ⟨by decide,
    ((C5_get_current_proxy_safe samplePool).2 (by decide)).2.2⟩

/-- Iteration of `rotate`: `k` successive calls, the `i`-th at time `ts i`. -/
def rotSeq (ts : Nat → ℚ) : Nat → ProxyPool → ProxyPool
  | 0, pool => pool
  | k + 1, pool => (rotSeq ts k pool).rotate (ts k)

/-- Fact: `rotate` never changes the target list. -/
theorem rotate_proxies (pool : ProxyPool) (now : ℚ) :
    (pool.rotate now).proxies = pool.proxies := by
  simp only [ProxyPool.rotate]
  split <;> rfl

/-- Fact: `rotate` with at most one active target is the identity. -/
theorem rotate_noop (pool : ProxyPool) (now : ℚ)
    (h : (pool.proxies.filter (·.is_active)).length ≤ 1) :
    pool.rotate now = pool := by
  simp only [ProxyPool.rotate]
  rw [if_pos h]

/-- Fact: `rotate` with at least two active targets advances the cursor modulo
the active count. -/
theorem rotate_cursor (pool : ProxyPool) (now : ℚ)
    (h : ¬ (pool.proxies.filter (·.is_active)).length ≤ 1) :
    (pool.rotate now).current_proxy_index =
      (pool.current_proxy_index + 1) %
        ((pool.proxies.filter (·.is_active)).length : Int) := by
  simp only [ProxyPool.rotate]
  rw [if_neg h]

/-- Iterated rotation never changes the target list. -/
theorem rotSeq_proxies (ts : Nat → ℚ) (k : Nat) (pool : ProxyPool) :
    (rotSeq ts k pool).proxies = pool.proxies := by
  induction k with
  | zero => rfl
  | succ k ih => rw [rotSeq, rotate_proxies, ih]

/-- The active-list index `get_current_proxy` would use: the cursor taken
modulo the active count. -/
def cursorPos (pool : ProxyPool) : Nat :=
  (pool.current_proxy_index %
    ((pool.proxies.filter (·.is_active)).length : Int)).toNat

/-- Cursor evolution under iterated rotation: with `N ≥ 1` active targets,
the cursor position after `k` rotations is `(c + k) mod N`.  (For `N = 1`
`rotate` is a no-op and both sides are `0`.) -/
theorem rotSeq_cursor_mod (pool : ProxyPool) (ts : Nat → ℚ)
    (hN : 1 ≤ (pool.proxies.filter (·.is_active)).length) (k : Nat) :
    (rotSeq ts k pool).current_proxy_index %
        ((pool.proxies.filter (·.is_active)).length : Int) =
      (pool.current_proxy_index + (k : Int)) %
        ((pool.proxies.filter (·.is_active)).length : Int) := by
  induction k with
  | zero => simp [rotSeq]
  | succ k ih =>
    rw [rotSeq]
    have hfilter : (rotSeq ts k pool).proxies.filter (·.is_active) =
        pool.proxies.filter (·.is_active) := by rw [rotSeq_proxies]
    by_cases h1 : (pool.proxies.filter (·.is_active)).length ≤ 1
    · rw [rotate_noop _ _ (by rw [hfilter]; exact h1), ih]
      have hN1 : (pool.proxies.filter (·.is_active)).length = 1 := by omega
      rw [hN1]
      simp [Int.emod_one]
    · rw [rotate_cursor _ _ (by rw [hfilter]; exact h1), hfilter]
      rw [Int.emod_emod_of_dvd _ dvd_rfl]
      rw [← Int.emod_add_emod, ih, Int.emod_add_emod]
      push_cast
      ring_nf

/-- C8: `rotate()` on a pool with at most one active target changes
neither the cursor nor the target list; and for any fixed pool with
`N ≥ 1` active targets, over a cycle of `N` rotations the cursor position
visits every active index exactly once (it is injective on the cycle and
covers every index `< N`). -/
theorem C8_rotation_cycle (pool : ProxyPool) (ts : Nat → ℚ) (now : ℚ) :
    ((pool.proxies.filter (·.is_active)).length ≤ 1 →
      (pool.rotate now).current_proxy_index = pool.current_proxy_index ∧
      (pool.rotate now).proxies = pool.proxies) ∧
    (1 ≤ (pool.proxies.filter (·.is_active)).length →
      (∀ k, (rotSeq ts k pool).proxies = pool.proxies) ∧
      (∀ i j, i < (pool.proxies.filter (·.is_active)).length →
        j < (pool.proxies.filter (·.is_active)).length →
        cursorPos (rotSeq ts i pool) = cursorPos (rotSeq ts j pool) →
        i = j) ∧
      (∀ m, m < (pool.proxies.filter (·.is_active)).length →
        ∃ k, k < (pool.proxies.filter (·.is_active)).length ∧
          cursorPos (rotSeq ts k pool) = m)) := by
  constructor
  · intro h1
    rw [rotate_noop pool now h1]
    exact ⟨rfl, rfl⟩
  · intro hN
    have hNpos : (0 : Int) < ((pool.proxies.filter (·.is_active)).length : Int) := by
      exact_mod_cast hN
    have hpos : ∀ k, cursorPos (rotSeq ts k pool) =
        ((pool.current_proxy_index + (k : Int)) %
          ((pool.proxies.filter (·.is_active)).length : Int)).toNat := by
      intro k
      unfold cursorPos
      rw [rotSeq_proxies, rotSeq_cursor_mod pool ts hN k]
    refine ⟨fun k => rotSeq_proxies ts k pool, ?_, ?_⟩
    · intro i j hi hj hij
      rw [hpos i, hpos j] at hij
      have h1 : 0 ≤ (pool.current_proxy_index + (i : Int)) %
          ((pool.proxies.filter (·.is_active)).length : Int) :=
        Int.emod_nonneg _ (by omega)
      have h2 : 0 ≤ (pool.current_proxy_index + (j : Int)) %
          ((pool.proxies.filter (·.is_active)).length : Int) :=
        Int.emod_nonneg _ (by omega)
      have hmod : (pool.current_proxy_index + (i : Int)) %
            ((pool.proxies.filter (·.is_active)).length : Int) =
          (pool.current_proxy_index + (j : Int)) %
            ((pool.proxies.filter (·.is_active)).length : Int) := by
        omega
      have hmodeq : (i : Int) %
            ((pool.proxies.filter (·.is_active)).length : Int) =
          (j : Int) % ((pool.proxies.filter (·.is_active)).length : Int) :=
        Int.ModEq.add_left_cancel' pool.current_proxy_index hmod
      rw [Int.emod_eq_of_lt (by omega) (by exact_mod_cast hi),
        Int.emod_eq_of_lt (by omega) (by exact_mod_cast hj)] at hmodeq
      exact_mod_cast hmodeq
    · intro m hm
      refine ⟨(((m : Int) - pool.current_proxy_index) %
          ((pool.proxies.filter (·.is_active)).length : Int)).toNat, ?_, ?_⟩
      · have := Int.emod_lt_of_pos
          ((m : Int) - pool.current_proxy_index) hNpos
        have := Int.emod_nonneg ((m : Int) - pool.current_proxy_index)
          (by omega : ((pool.proxies.filter (·.is_active)).length : Int) ≠ 0)
        omega
      · rw [hpos]
        have hk : ((((m : Int) - pool.current_proxy_index) %
            ((pool.proxies.filter (·.is_active)).length : Int)).toNat : Int) =
            ((m : Int) - pool.current_proxy_index) %
              ((pool.proxies.filter (·.is_active)).length : Int) := by
          have := Int.emod_nonneg ((m : Int) - pool.current_proxy_index)
            (by omega : ((pool.proxies.filter (·.is_active)).length : Int) ≠ 0)
          omega
        rw [hk, Int.add_emod_emod]
        have hcancel : pool.current_proxy_index +
            ((m : Int) - pool.current_proxy_index) = (m : Int) := by ring
        rw [hcancel, Int.emod_eq_of_lt (by omega) (by exact_mod_cast hm)]
        omega

/-- C8 witness: the cycle theorem applied at `samplePool` (two active
targets), discharging its hypotheses; some rotation in the first cycle
reaches active position 0. -/
theorem C8_witness :
    1 ≤ (samplePool.proxies.filter (·.is_active)).length ∧
    ∃ k, k < (samplePool.proxies.filter (·.is_active)).length ∧
      cursorPos (rotSeq (fun _ => 0) k samplePool) = 0 :=
  ⟨by decide,
    ((C8_rotation_cycle samplePool (fun _ => 0) 0).2 (by decide)).2.2 0 (by decide)⟩

/-- Fact: `record_request` increments the total counter in every branch of the
per-minute bookkeeping. -/
theorem record_request_total (st : TrafficStats) (success : Bool)
    (bi bo : Nat) (now : ℚ) :
    (st.record_request success bi bo now).total_requests =
      st.total_requests + 1 := by
  simp only [TrafficStats.record_request]
  split
  · split <;> rfl
  · rfl

/-- A `success = true` record increments the success counter and leaves
the failure counter alone, in every branch of the per-minute
bookkeeping. -/
theorem record_request_true_counts (st : TrafficStats) (bi bo : Nat) (now : ℚ) :
    (st.record_request true bi bo now).successful_requests =
      st.successful_requests + 1 ∧
    (st.record_request true bi bo now).failed_requests = st.failed_requests := by
  simp only [TrafficStats.record_request]
  split
  · split <;> exact ⟨rfl, rfl⟩
  · exact ⟨rfl, rfl⟩

/-- C4: every `proxy_request` invocation — success, relayed HTTP error,
transport error, client disconnect, or internal exception — records
exactly one `TrafficStats` entry (the total grows by exactly one) and
emits exactly one request log line, whatever branch was taken. -/
theorem C4_one_record_one_log (pool : Option ProxyPool) (st : TrafficStats)
    (command path : PyStr) (reqHeaders : List (PyStr × PyStr)) (clen : Nat)
    (target_host : PyStr) (target_port : Int) (use_ssl : Bool)
    (client_ip : PyStr) (up : UpstreamResult) (t0 t1 : ℚ) :
    (proxy_request pool (some st) command path reqHeaders clen target_host
        target_port use_ssl client_ip up t0 t1).stats.map (·.total_requests) =
      some (st.total_requests + 1) ∧
    (proxy_request pool (some st) command path reqHeaders clen target_host
        target_port use_ssl client_ip up t0 t1).requestLog.length = 1 := by
  refine ⟨?_, rfl⟩
  simp [proxy_request, record_request_total]

/-- C2: when the backend answers with a valid non-2xx HTTP response, the
relay forwards the status code and body verbatim (headers minus
hop-by-hop), counts the exchange as successful in `TrafficStats` (the
success counter grows, the failure counter does not), and records a
success — not a failure — on the upstream proxy in use. -/
theorem C2_http_error_relay (pl : ProxyPool) (st : TrafficStats)
    (p : ProxyEntry) (hp : (pl.get_current_proxy).1 = some p)
    (command path : PyStr) (reqHeaders : List (PyStr × PyStr)) (clen : Nat)
    (target_host : PyStr) (target_port : Int) (use_ssl : Bool)
    (client_ip : PyStr) (code : Nat) (hdrs : List (PyStr × PyStr))
    (body : List Nat) (t0 t1 : ℚ) :
    (proxy_request (some pl) (some st) command path reqHeaders clen
        target_host target_port use_ssl client_ip
        (.httpError code hdrs body) t0 t1).sent =
      [.response code (filterHop hdrs) body] ∧
    (proxy_request (some pl) (some st) command path reqHeaders clen
        target_host target_port use_ssl client_ip
        (.httpError code hdrs body) t0 t1).stats.map (·.successful_requests) =
      some (st.successful_requests + 1) ∧
    (proxy_request (some pl) (some st) command path reqHeaders clen
        target_host target_port use_ssl client_ip
        (.httpError code hdrs body) t0 t1).stats.map (·.failed_requests) =
      some st.failed_requests ∧
    (proxy_request (some pl) (some st) command path reqHeaders clen
        target_host target_port use_ssl client_ip
        (.httpError code hdrs body) t0 t1).finalProxy =
      some (p.record_success (t1 - t0) t1) ∧
    (proxy_request (some pl) (some st) command path reqHeaders clen
        target_host target_port use_ssl client_ip
        (.httpError code hdrs body) t0 t1).finalProxy.map (·.success_count) =
      some (p.success_count + 1) ∧
    (proxy_request (some pl) (some st) command path reqHeaders clen
        target_host target_port use_ssl client_ip
        (.httpError code hdrs body) t0 t1).finalProxy.map (·.failure_count) =
      some p.failure_count := by
  have hsc : (p.record_success (t1 - t0) t1).success_count = p.success_count + 1 := rfl
  have hfc : (p.record_success (t1 - t0) t1).failure_count = p.failure_count := rfl
  simp [proxy_request, relayBranch, hp,
    (record_request_true_counts st clen body.length t1).1,
    (record_request_true_counts st clen body.length t1).2, hsc, hfc]

/-- C2 witness: the relay theorem applied at `samplePool` (whose current
proxy is the `("c", 3)` entry), a backend 404 with a body, and fresh
stats. -/
theorem C2_witness :
    (samplePool.get_current_proxy).1 =
      some { host := "c".data, port := 3 } ∧
    (proxy_request (some samplePool) (some ({} : TrafficStats)) "GET".data
        "/".data [] 0 "t".data 80 false "ip".data
        (.httpError 404 [] [120]) 0 1).stats.map (·.successful_requests) =
      some 1 :=
  ⟨by decide,
    (C2_http_error_relay samplePool {} { host := "c".data, port := 3 }
      (by decide) "GET".data "/".data [] 0 "t".data 80 false "ip".data
      404 [] [120] 0 1).2.1⟩

/-- A freshly constructed `ReverseProxy` and one that has been started. -/
def rp0 : ReverseProxyS := {}

/-- The sample instance after one `start()`: it is running. -/
def rp1 : ReverseProxyS := rp0.start

/-- C3 counterexample: calling `start()` on the already-running `rp1`
creates and binds another server and spawns more threads — it is not a
no-op and does not leave the instance unchanged. -/
theorem C3_counterexample :
    rp1.running = true ∧
    (rp1.start).serverGen = rp1.serverGen + 1 ∧
    (rp1.start).serverThreads = rp1.serverThreads + 1 ∧
    (rp1.start).proxy_pool.rotationThreads =
      rp1.proxy_pool.rotationThreads + 1 ∧
    rp1.start ≠ rp1 := by
  refine ⟨by decide, by decide, by decide, by decide, fun h => ?_⟩
  have := congrArg ReverseProxyS.serverGen h
  simp [rp1, rp0, ReverseProxyS.start] at this

/-- C3 (amended): the no-op-with-warning guard lives in the
interactive-mode `start` command, which leaves a running instance
unchanged and reports the warning; the bare `ReverseProxy.start()`
method performs startup unconditionally — every call creates and binds a
new server and spawns new rotation/validation/server threads. -/
theorem C3_start_guard_in_interactive (s : ReverseProxyS) :
    (s.running = true → interactiveStart s = (s, true)) ∧
    (s.start).serverGen = s.serverGen + 1 ∧
    (s.start).serverThreads = s.serverThreads + 1 ∧
    (s.start).proxy_pool.rotationThreads = s.proxy_pool.rotationThreads + 1 ∧
    (s.start).proxy_pool.validationThreads =
      s.proxy_pool.validationThreads + 1 := by
  refine ⟨fun h => ?_, rfl, rfl, rfl, rfl⟩
  simp [interactiveStart, h]

/-- C3 witness: the amended theorem applied at the running instance
`rp1`, discharging the running hypothesis. -/
theorem C3_witness : interactiveStart rp1 = (rp1, true) :=
  (C3_start_guard_in_interactive rp1).1 (by decide)

/-! ### String-layer lemmas for the save/load round trip -/

/-- Fact: `pySplit` on a separator-free string is the singleton of that
string. -/
theorem pySplit_no_sep (sep : Char) (s : PyStr) (h : sep ∉ s) :
    pySplit sep s = [s] := by
  induction s with
  | nil => rfl
  | cons c cs ih =>
    have hc : ¬ c = sep := fun hc => h (hc ▸ List.mem_cons_self c cs)
    have hcs : sep ∉ cs := fun hm => h (List.mem_cons_of_mem c hm)
    rw [pySplit, if_neg hc, ih hcs]

/-- Splitting off the first separator-free chunk. -/
theorem pySplit_append (sep : Char) (a b : PyStr) (h : sep ∉ a) :
    pySplit sep (a ++ sep :: b) = a :: pySplit sep b := by
  induction a with
  | nil => simp [pySplit]
  | cons c cs ih =>
    have hc : ¬ c = sep := fun hc => h (hc ▸ List.mem_cons_self c cs)
    have hcs : sep ∉ cs := fun hm => h (List.mem_cons_of_mem c hm)
    rw [List.cons_append, pySplit, if_neg hc, ih hcs]

/-- Fact: `dropWhile` is the identity when no element satisfies the
predicate. -/
theorem dropWhile_eq_self_of_none (p : Char → Bool) (l : PyStr)
    (h : ∀ c ∈ l, p c = false) : l.dropWhile p = l := by
  cases l with
  | nil => rfl
  | cons c cs =>
    rw [List.dropWhile_cons, if_neg]
    simp [h c (List.mem_cons_self c cs)]

/-- Fact: `pyStrip` is the identity on whitespace-free strings. -/
theorem pyStrip_eq_self (s : PyStr) (h : ∀ c ∈ s, pyIsSpace c = false) :
    pyStrip s = s := by
  unfold pyStrip
  rw [dropWhile_eq_self_of_none _ s h,
    dropWhile_eq_self_of_none _ s.reverse
      (fun c hc => h c (List.mem_reverse.mp hc)),
    List.reverse_reverse]

/-- A digit character is not one of the special characters the file
format treats specially. -/
theorem digit_not_special (c : Char) (h : c.isDigit = true) :
    c ≠ ':' ∧ c ≠ '-' ∧ pyIsSpace c = false := by
  refine ⟨fun hc => ?_, fun hc => ?_, ?_⟩
  · subst hc; exact absurd h (by decide)
  · subst hc; exact absurd h (by decide)
  · by_contra hs
    rw [Bool.not_eq_false] at hs
    simp only [pyIsSpace, Bool.or_eq_true, beq_iff_eq] at hs
    rcases hs with ((((h1 | h1) | h1) | h1) | h1) | h1 <;>
      (subst h1; exact absurd h (by decide))

/-- Values of decimal digit characters. -/
theorem digitVal_digitChar : ∀ d : Nat, d < 10 →
    digitVal (Nat.digitChar d) = d := by decide

/-- Decimal digit characters satisfy `Char.isDigit`. -/
theorem digitChar_isDigit : ∀ d : Nat, d < 10 →
    (Nat.digitChar d).isDigit = true := by decide

/-- Fact: `digitsVal` peels the last digit. -/
theorem digitsVal_concat (xs : PyStr) (c : Char) :
    digitsVal (xs ++ [c]) = 10 * digitsVal xs + digitVal c := by
  simp [digitsVal, List.foldl_append, Nat.mul_comm]

/-- With enough fuel, the digit expansion evaluates back to its input, is
nonempty, and consists of digit characters only. -/
theorem natToDigitsAux_spec : ∀ (fuel n : Nat), n < fuel →
    digitsVal (natToDigitsAux fuel n) = n ∧
    natToDigitsAux fuel n ≠ [] ∧
    ∀ c ∈ natToDigitsAux fuel n, c.isDigit = true := by
  intro fuel
  induction fuel with
  | zero => intro n h; omega
  | succ fuel ih =>
    intro n h
    by_cases h10 : n < 10
    · rw [natToDigitsAux, if_pos h10]
      refine ⟨?_, by simp, ?_⟩
      · show digitsVal ([] ++ [Nat.digitChar n]) = n
        rw [digitsVal_concat]
        have := digitVal_digitChar n h10
        simp [digitsVal]
        omega
      · intro c hc
        rw [List.mem_singleton] at hc
        subst hc
        exact digitChar_isDigit n h10
    · have hdiv : n / 10 < fuel := by omega
      obtain ⟨ih1, ih2, ih3⟩ := ih (n / 10) hdiv
      rw [natToDigitsAux, if_neg h10]
      refine ⟨?_, by simp, ?_⟩
      · rw [digitsVal_concat, ih1, digitVal_digitChar (n % 10) (by omega)]
        omega
      · intro c hc
        rcases List.mem_append.mp hc with hc | hc
        · exact ih3 c hc
        · rw [List.mem_singleton] at hc
          subst hc
          exact digitChar_isDigit (n % 10) (by omega)

/-- Fact: `natToDigits` evaluates back to its input. -/
theorem digitsVal_natToDigits (n : Nat) : digitsVal (natToDigits n) = n :=
  (natToDigitsAux_spec (n + 1) n (by omega)).1

/-- Fact: `natToDigits` is nonempty. -/
theorem natToDigits_ne_nil (n : Nat) : natToDigits n ≠ [] :=
  (natToDigitsAux_spec (n + 1) n (by omega)).2.1

/-- Fact: `natToDigits` consists of digit characters. -/
theorem natToDigits_all_digit (n : Nat) :
    ∀ c ∈ natToDigits n, c.isDigit = true :=
  (natToDigitsAux_spec (n + 1) n (by omega)).2.2

/-- Every character of `str(i)` is a minus sign or a digit. -/
theorem pyIntRepr_chars (i : Int) (c : Char) (h : c ∈ pyIntRepr i) :
    c = '-' ∨ c.isDigit = true := by
  unfold pyIntRepr at h
  by_cases hi : i < 0
  · rw [if_pos hi] at h
    rcases List.mem_cons.mp h with h | h
    · exact Or.inl h
    · exact Or.inr (natToDigits_all_digit _ c h)
  · rw [if_neg hi] at h
    exact Or.inr (natToDigits_all_digit _ c h)

/-- Fact: `str(i)` contains neither `:` nor any whitespace character. -/
theorem pyIntRepr_no_special (i : Int) (c : Char) (h : c ∈ pyIntRepr i) :
    c ≠ ':' ∧ pyIsSpace c = false := by
  rcases pyIntRepr_chars i c h with h1 | h1
  · subst h1; exact ⟨by decide, by decide⟩
  · exact ⟨(digit_not_special c h1).1, (digit_not_special c h1).2.2⟩

/-- Parsing `str(i)` with Python `int()` semantics recovers `i`. -/
theorem pyInt?_pyIntRepr (i : Int) : pyInt? (pyIntRepr i) = some i := by
  have hstrip : pyStrip (pyIntRepr i) = pyIntRepr i :=
    pyStrip_eq_self _ (fun c hc => (pyIntRepr_no_special i c hc).2)
  by_cases hi : i < 0
  · have hrepr : pyIntRepr i = '-' :: natToDigits i.natAbs := by
      unfold pyIntRepr
      rw [if_pos hi]
    rw [pyInt?, hstrip, hrepr]
    rw [if_neg (by simp)]
    rw [if_pos (by simp)]
    rw [if_neg (by simpa using natToDigits_ne_nil i.natAbs)]
    rw [if_pos (by
      rw [List.all_eq_true]
      intro c hc
      exact natToDigits_all_digit i.natAbs c hc)]
    have hv : digitsVal (natToDigits i.natAbs) = i.natAbs :=
      digitsVal_natToDigits i.natAbs
    simp only [List.tail_cons]
    rw [hv]
    congr 1
    omega
  · have hrepr : pyIntRepr i = natToDigits i.natAbs := by
      unfold pyIntRepr
      rw [if_neg hi]
    obtain ⟨first, rest, hfr⟩ : ∃ first rest,
        natToDigits i.natAbs = first :: rest := by
      cases hnd : natToDigits i.natAbs with
      | nil => exact absurd hnd (natToDigits_ne_nil i.natAbs)
      | cons a l => exact ⟨a, l, rfl⟩
    have hfirst : first.isDigit = true :=
      natToDigits_all_digit i.natAbs first (by rw [hfr]; exact List.mem_cons_self _ _)
    rw [pyInt?, hstrip, hrepr, hfr]
    rw [if_neg (by simp)]
    rw [if_neg (by
      simp only [List.head?_cons, Option.some_inj]
      intro hm
      subst hm
      exact absurd hfirst (by decide))]
    rw [if_pos (by
      rw [List.all_eq_true]
      intro c hc
      exact natToDigits_all_digit i.natAbs c (hfr ▸ hc))]
    have hv : digitsVal (first :: rest) = i.natAbs := by
      rw [← hfr]
      exact digitsVal_natToDigits i.natAbs
    rw [hv]
    congr 1
    omega

/-- A host string that survives the `host:port:type` file format: no `:`
(the field separator), no whitespace (`strip` and the line structure), and
not starting with `#` (comment marker).  `add_proxy` accepts arbitrary
hosts, so this is a genuine restriction — see the C7 counterexample. -/
def goodHost (h : PyStr) : Prop :=
  (∀ c ∈ h, c ≠ ':' ∧ pyIsSpace c = false) ∧ h.head? ≠ some '#'

instance : DecidablePred goodHost := fun h => by
  unfold goodHost
  infer_instance

/-- The four valid kinds contain no special characters and are fixed by
`str.lower()`. -/
theorem valid_type_chars : ∀ t ∈ valid_types,
    (∀ c ∈ t, c ≠ ':' ∧ pyIsSpace c = false) ∧ pyLower t = t := by decide

/-- Under `goodHost` and a valid kind, the saved line contains no
whitespace characters at all. -/
theorem entryLine_no_space (e : ProxyEntry) (hh : goodHost e.host)
    (ht : e.proxy_type ∈ valid_types) :
    ∀ c ∈ entryLine e, pyIsSpace c = false := by
  intro c hc
  unfold entryLine at hc
  rcases List.mem_append.mp hc with hc | hc
  · exact (hh.1 c hc).2
  · rcases List.mem_cons.mp hc with hc | hc
    · subst hc; decide
    · rcases List.mem_append.mp hc with hc | hc
      · exact (pyIntRepr_no_special e.port c hc).2
      · rcases List.mem_cons.mp hc with hc | hc
        · subst hc; decide
        · exact ((valid_type_chars e.proxy_type ht).1 c hc).2

/-- Under `goodHost` and a valid kind, splitting the saved line on `:`
recovers exactly the three fields. -/
theorem pySplit_entryLine (e : ProxyEntry) (hh : goodHost e.host)
    (ht : e.proxy_type ∈ valid_types) :
    pySplit ':' (entryLine e) = [e.host, pyIntRepr e.port, e.proxy_type] := by
  unfold entryLine
  rw [pySplit_append ':' e.host _ (fun hc => (hh.1 ':' hc).1 rfl)]
  rw [pySplit_append ':' (pyIntRepr e.port) _
    (fun hc => (pyIntRepr_no_special e.port ':' hc).1 rfl)]
  rw [pySplit_no_sep ':' e.proxy_type
    (fun hc => ((valid_type_chars e.proxy_type ht).1 ':' hc).1 rfl)]

/-- The entry a successful `add_proxy host port type` appends when `type`
is already a lower-case valid kind: all health fields at their
defaults. -/
def mkFresh (e : ProxyEntry) : ProxyEntry :=
  { host := e.host, port := e.port, proxy_type := e.proxy_type }

/-- Reading back one saved line adds exactly the fresh copy of its entry
(provided its key is not already in the pool). -/
theorem loadLine_entryLine (pool : ProxyPool) (n : Nat) (e : ProxyEntry)
    (hh : goodHost e.host) (ht : e.proxy_type ∈ valid_types)
    (hdup : (e.host, e.port) ∉ poolKeys pool) :
    loadLine (pool, n) (entryLine e) =
      ({ pool with proxies := pool.proxies ++ [mkFresh e] }, n + 1) := by
  have hstrip : pyStrip (entryLine e) = entryLine e :=
    pyStrip_eq_self _ (entryLine_no_space e hh ht)
  have hne : entryLine e ≠ [] := by
    unfold entryLine
    cases e.host <;> simp
  have hhead : (entryLine e).head? ≠ some '#' := by
    unfold entryLine
    cases hhost : e.host with
    | nil => simp
    | cons a l =>
      simp only [List.cons_append, List.head?_cons]
      intro hcontra
      have : e.host.head? = some '#' := by
        rw [hhost, List.head?_cons]
        exact hcontra
      exact hh.2 this
  rw [loadLine, hstrip]
  rw [if_neg hne, if_neg hhead, pySplit_entryLine e hh ht]
  simp only
  rw [pyInt?_pyIntRepr e.port]
  simp only [ProxyPool.add_proxy, (valid_type_chars e.proxy_type ht).2,
    if_pos ht]
  have hany : ¬ (pool.proxies.any fun p =>
      p.host == e.host && p.port == e.port) = true :=
    fun ha => hdup ((any_match_iff_mem_keys pool e.host e.port).mp ha)
  rw [if_neg hany]
  rfl

/-- Fact: `loadLine` skips a blank line. -/
theorem loadLine_blank (st : ProxyPool × Nat) : loadLine st [] = st := by
  rw [loadLine]
  simp [pyStrip]

/-- Reading back the saved lines of a list of good entries, starting from
any pool disjoint from them, appends exactly their fresh copies in
order. -/
theorem foldl_loadLine_entryLines : ∀ (rest : List ProxyEntry)
    (pool : ProxyPool) (n : Nat),
    (∀ e ∈ rest, goodHost e.host ∧ e.proxy_type ∈ valid_types) →
    (poolKeys pool ++ rest.map fun e => (e.host, e.port)).Nodup →
    (rest.map entryLine).foldl loadLine (pool, n) =
      ({ pool with proxies := pool.proxies ++ rest.map mkFresh }, n + rest.length) := by
  intro rest
  induction rest with
  | nil =>
    intro pool n _ _
    simp
  | cons e rest ih =>
    intro pool n hgood hnodup
    have hdup : (e.host, e.port) ∉ poolKeys pool := by
      rw [List.map_cons] at hnodup
      intro hmem
      have hdisj := (List.nodup_append.mp hnodup).2.2
      exact hdisj hmem (List.mem_cons_self _ _)
    rw [List.map_cons, List.foldl_cons,
      loadLine_entryLine pool n e (hgood e (List.mem_cons_self _ _)).1
        (hgood e (List.mem_cons_self _ _)).2 hdup]
    rw [ih ({ pool with proxies := pool.proxies ++ [mkFresh e] }) (n + 1)
      (fun x hx => hgood x (List.mem_cons_of_mem e hx)) ?keys]
    case keys =>
      have hkeys : poolKeys { pool with proxies := pool.proxies ++ [mkFresh e] } =
          poolKeys pool ++ [(e.host, e.port)] := by
        simp [poolKeys, mkFresh]
      rw [hkeys, List.map_cons] at *
      have : poolKeys pool ++ [(e.host, e.port)] ++
          List.map (fun e => (e.host, e.port)) rest =
          poolKeys pool ++ (e.host, e.port) ::
            List.map (fun e => (e.host, e.port)) rest := by
        simp
      rw [this]
      exact hnodup
    simp only [List.map_cons, List.length_cons]
    have h1 : pool.proxies ++ [mkFresh e] ++ List.map mkFresh rest =
        pool.proxies ++ mkFresh e :: List.map mkFresh rest := by simp
    have h2 : n + 1 + rest.length = n + (rest.length + 1) := by omega
    rw [h1, h2]

/-- Splitting a flattened list of newline-terminated, newline-free lines
recovers the lines (plus the final empty chunk). -/
theorem pySplit_flatten_lines : ∀ (lines : List PyStr),
    (∀ l ∈ lines, '\n' ∉ l) →
    pySplit '\n' (lines.map (fun l => l ++ ['\n'])).flatten = lines ++ [[]] := by
  intro lines
  induction lines with
  | nil => intro _; rfl
  | cons l ls ih =>
    intro h
    rw [List.map_cons, List.flatten_cons]
    have : l ++ ['\n'] ++ (ls.map (fun l => l ++ ['\n'])).flatten =
        l ++ '\n' :: (ls.map (fun l => l ++ ['\n'])).flatten := by
      simp
    rw [this, pySplit_append '\n' l _ (h l (List.mem_cons_self _ _)),
      ih (fun x hx => h x (List.mem_cons_of_mem l hx))]
    rfl

/-- The triple claim C7 compares pools by. -/
def poolTriples (pool : ProxyPool) : List (PyStr × Int × PyStr) :=
  pool.proxies.map fun e => (e.host, e.port, e.proxy_type)

/-- C7 (amended): saving a pool and loading the file into a fresh pool
reproduces exactly the original `(host, port, kind)` tuples (in pool
order, hence the same set whatever order the originals were inserted in),
provided every host is representable in the line format: no `:`, no
whitespace, not starting with `#` — and the pool's keys are distinct and
its kinds valid, as every pool built through `add_proxy` satisfies. -/
theorem C7_roundtrip (s : ProxyPool)
    (hkeys : (poolKeys s).Nodup)
    (hgood : ∀ e ∈ s.proxies, goodHost e.host ∧ e.proxy_type ∈ valid_types) :
    poolTriples (emptyPool.load_from_file s.save_to_file).1 = poolTriples s := by
  unfold ProxyPool.load_from_file ProxyPool.save_to_file
  have hnl : ∀ l ∈ s.proxies.map entryLine, '\n' ∉ l := by
    intro l hl hc
    rcases List.mem_map.mp hl with ⟨e, he, rfl⟩
    have := entryLine_no_space e (hgood e he).1 (hgood e he).2 '\n' hc
    exact absurd this (by decide)
  have hsplit : pySplit '\n'
      ((s.proxies.map fun e => entryLine e ++ ['\n']).flatten) =
      s.proxies.map entryLine ++ [[]] := by
    have : (s.proxies.map fun e => entryLine e ++ ['\n']) =
        ((s.proxies.map entryLine).map fun l => l ++ ['\n']) := by
      rw [List.map_map]
      rfl
    rw [this]
    exact pySplit_flatten_lines (s.proxies.map entryLine) hnl
  rw [hsplit, List.foldl_append]
  rw [foldl_loadLine_entryLines s.proxies emptyPool 0 hgood
    (by simpa [poolKeys, emptyPool] using hkeys)]
  simp only [List.foldl_cons, List.foldl_nil, loadLine_blank]
  simp only [poolTriples, emptyPool]
  simp [mkFresh, List.map_map]

/-- A pool holding a host that embeds a `:`; `add_proxy` accepts it. -/
def badPool : ProxyPool :=
  (emptyPool.add_proxy "a:b".data 80 "http".data none none).1

/-- C7 counterexample: the pool containing host `"a:b"` does not survive
the save/load round trip — its line `a:b:80:http` parses as host `a` with
unparsable port `b`, so the line is skipped and the loaded pool is empty,
while the claim as stated promises equal tuple sets for *every* pool. -/
theorem C7_counterexample :
    (emptyPool.add_proxy "a:b".data 80 "http".data none none).2 = true ∧
    poolTriples (emptyPool.load_from_file badPool.save_to_file).1 ≠
      poolTriples badPool := by
  constructor
  · decide
  · decide

/-- C7 witness: the round trip applied to a concrete two-entry pool,
discharging the distinctness and well-formedness hypotheses. -/
theorem C7_witness :
    (poolKeys samplePool).Nodup ∧
    poolTriples (emptyPool.load_from_file samplePool.save_to_file).1 =
      poolTriples samplePool :=
  ⟨by decide,
    C7_roundtrip samplePool (by decide) (by decide)⟩

end RambaZamba
